import Mathlib

/-!
Shallow embedding of the offline mutation queue of the Attendance-App
repository (OfflineQueueManager in src/src/services/offline/queue-manager.ts,
with the outcome classification of executeAction against the responses of
MockApiClient in src/src/services/api/client.ts, and the constants of
src/src/config/constants.ts).

JavaScript objects that hold a payload are modelled as association lists
with last-binding-wins lookup, which is exactly the semantics of the object
spread operator used by mergeChanges. Action types are modelled as plain
strings because the runtime code performs no validation of them (the record
lookup in getDefaultPriority falls back to 50 for unknown keys). Queue items
carry the same fields as the OfflineQueueItem records manipulated by the
manager. Identifiers are uuid strings in the source; operations that locate
an item by findIndex are modelled as updates to the first list entry whose
id matches, which coincides with the aliasing behaviour of the source
whenever ids are distinct (uuid assignment makes them so).
-/

namespace AttendanceQueue

/-- A JavaScript value stored in a queue payload field. -/
inductive Value where
  | vNat (n : Nat)
  | vInt (i : Int)
  | vStr (s : String)
  | vBool (b : Bool)
deriving DecidableEq, Repr

/-- A JavaScript object (`Record<string, unknown>`): field bindings in
insertion order; a later binding for the same key shadows an earlier one,
as with the object spread operator. -/
abbrev Payload := List (String × Value)

/-- Lookup in a payload with last-binding-wins semantics: the binding added
last (appearing later in the list) is the one an object field access sees. -/
def jget (k : String) : Payload → Option Value
  | [] => none
  | kv :: rest =>
    match jget k rest with
    | some v => some v
    | none => if kv.1 == k then some kv.2 else none

/-- The status field of a queue item. -/
inductive QueueStatus where
  | pending
  | syncing
  | failed
  | completed
deriving DecidableEq, Repr

/-- The conflictResolution field of a queue item. -/
inductive ConflictResolution where
  | client_wins
  | server_wins
  | merge
  | manual
deriving DecidableEq, Repr

/-- One entry of the offline queue (the OfflineQueueItem record). -/
structure OfflineQueueItem where
  id : String
  type : String
  payload : Payload
  timestamp : Nat
  retryCount : Nat
  maxRetries : Nat
  priority : Int
  conflictResolution : ConflictResolution
  status : QueueStatus
  localVersion : Nat
  serverVersion : Option Value := none
  errorMessage : Option String := none
  lastAttempt : Option Nat := none
deriving DecidableEq, Repr

/-- The OFFLINE_CONFIG fields the queue manager reads (constants.ts). -/
structure OfflineConfig where
  maxQueueSize : Nat
  defaultMaxRetries : Nat
  syncInterval : Nat
  syncBatchSize : Nat
  defaultConflictResolution : ConflictResolution
deriving DecidableEq, Repr

/-- OFFLINE_CONFIG from src/src/config/constants.ts. -/
def OFFLINE_CONFIG : OfflineConfig :=
  { maxQueueSize := 1000
    defaultMaxRetries := 5
    syncInterval := 60000
    syncBatchSize := 20
    defaultConflictResolution := .client_wins }

/-- The six action types of the closed OfflineActionType enumeration. -/
def knownActionTypes : List String :=
  ["attendance_check_in", "attendance_check_out", "task_update",
   "report_submit", "location_update", "photo_upload"]

/-- getDefaultPriority: the static per-action-type priority record; the
record access on an unknown key yields undefined and the trailing
logical-or makes the result 50. -/
def getDefaultPriority (type : String) : Int :=
  if type == "attendance_check_in" then 100
  else if type == "attendance_check_out" then 100
  else if type == "task_update" then 80
  else if type == "report_submit" then 60
  else if type == "location_update" then 40
  else if type == "photo_upload" then 20
  else 50

/-- The optional third argument of enqueue. -/
structure EnqueueOptions where
  priority : Option Int := none
  conflictResolution : Option ConflictResolution := none
  maxRetries : Option Nat := none
deriving DecidableEq, Repr

/-- The item record built by enqueue before it is appended to the queue:
fresh id, the caller payload, Date.now() as timestamp, retryCount 0, and
each option defaulted with the nullish-coalescing operator. -/
def mkQueueItem (id type : String) (payload : Payload) (now : Nat)
    (opts : EnqueueOptions) : OfflineQueueItem :=
  { id := id
    type := type
    payload := payload
    timestamp := now
    retryCount := 0
    maxRetries := opts.maxRetries.getD OFFLINE_CONFIG.defaultMaxRetries
    priority := opts.priority.getD (getDefaultPriority type)
    conflictResolution :=
      opts.conflictResolution.getD OFFLINE_CONFIG.defaultConflictResolution
    status := .pending
    localVersion := 1 }

/-- The ordering enforced by the sortQueue comparator: higher priority
first, ties broken by earlier timestamp. -/
def qle (a b : OfflineQueueItem) : Prop :=
  b.priority < a.priority ∨ (a.priority = b.priority ∧ a.timestamp ≤ b.timestamp)

instance qleDecidable : DecidableRel qle := fun a b => by
  unfold qle
  infer_instance

instance qleTotal : IsTotal OfflineQueueItem qle :=
  ⟨by intro a b; unfold qle; omega⟩

instance qleTrans : IsTrans OfflineQueueItem qle :=
  ⟨by intro a b c hab hbc; unfold qle at hab hbc ⊢; omega⟩

/-- sortQueue: the queue sorted by the comparator (Array.prototype.sort is
a stable comparator sort; insertion sort realises the same specification). -/
def sortQueue (q : List OfflineQueueItem) : List OfflineQueueItem :=
  List.insertionSort qle q

/-- The sortedness invariant of the in-memory queue. -/
def QSorted (q : List OfflineQueueItem) : Prop :=
  List.Sorted qle q

instance : DecidablePred QSorted := fun l => List.decidableSorted l

/-- enqueue, restricted to its effect on the queue value: push the new item
and re-sort (persistence and the drain trigger are modelled separately). -/
def enqueue (q : List OfflineQueueItem) (id type : String) (payload : Payload)
    (now : Nat) (opts : EnqueueOptions) : List OfflineQueueItem :=
  sortQueue (q ++ [mkQueueItem id type payload now opts])

/-- Replace the first list entry satisfying p by its image under f; the
model of an assignment through queue.findIndex followed by mutation of
queue at that index. -/
def updateFirst (p : OfflineQueueItem → Bool) (f : OfflineQueueItem → OfflineQueueItem) :
    List OfflineQueueItem → List OfflineQueueItem
  | [] => []
  | x :: xs => if p x then f x :: xs else x :: updateFirst p f xs

/-- removeItem, restricted to its effect on the queue value. -/
def removeItem (q : List OfflineQueueItem) (id : String) : List OfflineQueueItem :=
  q.filter (fun x => x.id != id)

/-- retryItem: early return when the id is absent, otherwise the first
matching entry gets status pending and retryCount 0. -/
def retryItem (q : List OfflineQueueItem) (id : String) : List OfflineQueueItem :=
  if (q.find? (fun x => x.id == id)).isNone then q
  else updateFirst (fun x => x.id == id)
    (fun it => { it with status := .pending, retryCount := 0 }) q

/-- retryAllFailed: the forEach loop that resets every failed entry. -/
def retryAllFailed (q : List OfflineQueueItem) : List OfflineQueueItem :=
  q.map (fun it =>
    if it.status == .failed then { it with status := .pending, retryCount := 0 } else it)

/-- clearOldItems: keep an entry unless it is completed and its timestamp
is at or before the cutoff Date.now() minus maxAgeMs. -/
def clearOldItems (q : List OfflineQueueItem) (now maxAgeMs : Nat) :
    List OfflineQueueItem :=
  q.filter (fun it =>
    (it.status != .completed) || decide (((now : Int) - (maxAgeMs : Int)) < (it.timestamp : Int)))

/-- The getStats() snapshot. -/
structure QueueStats where
  total : Nat
  pending : Nat
  syncing : Nat
  failed : Nat
deriving DecidableEq, Repr

/-- getStats: counts by status over the current queue. -/
def getStats (q : List OfflineQueueItem) : QueueStats :=
  { total := q.length
    pending := (q.filter (fun x => x.status == .pending)).length
    syncing := (q.filter (fun x => x.status == .syncing)).length
    failed := (q.filter (fun x => x.status == .failed)).length }

/-- The view of response.data that executeAction casts it to: an optional
conflict flag and optional server payload; a response whose data is any
other object reads as conflict false. -/
structure RemoteData where
  conflict : Bool := false
  serverData : Option Payload := none
deriving DecidableEq, Repr

/-- The error object of an ApiResponse. -/
structure ApiError where
  code : String
  message : String
deriving DecidableEq, Repr

/-- The ApiResponse envelope returned by MockApiClient requests. -/
structure ApiResponse where
  success : Bool
  data : Option RemoteData := none
  error : Option ApiError := none
deriving DecidableEq, Repr

/-- What one awaited apiClient.post call can do: resolve with a response,
or reject with an Error carrying a message. -/
inductive PostOutcome where
  | replied (resp : ApiResponse)
  | threw (msg : String)
deriving DecidableEq, Repr

/-- The record executeAction returns to processItem. -/
structure ClassifiedResult where
  success : Bool
  conflict : Bool := false
  serverData : Option Payload := none
  error : Option String := none
deriving DecidableEq, Repr

/-- A pure retryable failure result with the given message. -/
def failRes (msg : String) : ClassifiedResult :=
  { success := false, error := some msg }

/-- String.prototype.includes: sub occurs somewhere in s. -/
def includesStr (s sub : String) : Bool :=
  (s.splitOn sub).length != 1

/-- executeAction, as a function of the outcome of its single post call:
a resolved response whose data carries a truthy conflict flag is a
conflict; every other resolved response is a success (the success flag and
error object of the response are never read); a rejected call whose
message mentions 409 is a conflict, any other rejection is a retryable
failure with that message. -/
def executeAction : PostOutcome → ClassifiedResult
  | .replied resp =>
    match resp.data with
    | some d =>
      if d.conflict then
        { success := false, conflict := true, serverData := d.serverData }
      else { success := true }
    | none => { success := true }
  | .threw msg =>
    if includesStr msg "409" then { success := false, conflict := true }
    else failRes msg

/-- The response of MockApiClient.handleCheckOut as executeAction sees it:
with a record for today it resolves with the updated record (no conflict
field), without one it resolves with success false and a NOT_FOUND error. -/
def mockCheckOutResponse (recordFound : Bool) : ApiResponse :=
  if recordFound then { success := true, data := some {} }
  else { success := false, error := some ⟨"NOT_FOUND", "No check-in record found"⟩ }

/-- mergeChanges: object spread of the server payload, then the local
payload, then the merge tags, so local bindings shadow server bindings and
the tags shadow both. -/
def mergeChanges (localP serverP : Payload) (now : Nat) : Payload :=
  serverP ++ localP ++ [("_merged", .vBool true), ("_mergedAt", .vNat now)]

/-- handleConflict: early return when the id is absent from the queue,
otherwise dispatch on the conflictResolution of the item. -/
def handleConflict (q : List OfflineQueueItem) (item : OfflineQueueItem)
    (serverData : Option Payload) (now : Nat) : List OfflineQueueItem :=
  if (q.find? (fun x => x.id == item.id)).isNone then q
  else
    match item.conflictResolution with
    | .client_wins =>
      updateFirst (fun x => x.id == item.id)
        (fun it => { it with localVersion := it.localVersion + 1, status := .pending }) q
    | .server_wins =>
      q.filter (fun x => x.id != item.id)
    | .merge =>
      updateFirst (fun x => x.id == item.id)
        (fun it =>
          { it with payload := mergeChanges it.payload (serverData.getD []) now
                    localVersion := it.localVersion + 1
                    status := .pending }) q
    | .manual =>
      updateFirst (fun x => x.id == item.id)
        (fun it =>
          { it with status := .failed
                    errorMessage := some "Conflict requires manual resolution"
                    serverVersion := serverData.bind (jget "_version") }) q

/-- processItem: early return when the id is absent; otherwise mark the
entry syncing with lastAttempt now, then dispatch on the classified result:
success removes the entry, conflict is delegated to handleConflict, and
anything else increments retryCount, records the message, and sets the
status to failed when the new retryCount reaches maxRetries, else back to
pending. -/
def processItem (q : List OfflineQueueItem) (item : OfflineQueueItem)
    (result : ClassifiedResult) (now : Nat) : List OfflineQueueItem :=
  if (q.find? (fun x => x.id == item.id)).isNone then q
  else
    let q1 := updateFirst (fun x => x.id == item.id)
      (fun it => { it with status := .syncing, lastAttempt := some now }) q
    if result.success then
      (updateFirst (fun x => x.id == item.id)
        (fun it => { it with status := .completed }) q1).filter
        (fun x => x.id != item.id)
    else if result.conflict then
      handleConflict q1 item result.serverData now
    else
      updateFirst (fun x => x.id == item.id)
        (fun it =>
          { it with retryCount := it.retryCount + 1
                    errorMessage := some (result.error.getD "")
                    status :=
                      if item.maxRetries ≤ it.retryCount + 1 then .failed else .pending }) q1

/-- Whether processQueue selects an entry into a batch: its status is
pending or failed; nothing else is consulted. -/
def eligibleForBatch (it : OfflineQueueItem) : Bool :=
  it.status == .pending || it.status == .failed

/-- The batch a drain works through: the eligible entries of the queue, in
queue order, capped at syncBatchSize. -/
def selectBatch (q : List OfflineQueueItem) : List OfflineQueueItem :=
  (q.filter eligibleForBatch).take OFFLINE_CONFIG.syncBatchSize

/-- The queue after the batch loop of processQueue, with the outcome of
the network call for each item supplied by exec. -/
def drainBatch (q : List OfflineQueueItem) (exec : OfflineQueueItem → ClassifiedResult)
    (now : Nat) : List OfflineQueueItem :=
  (selectBatch q).foldl (fun acc it => processItem acc it (exec it) now) q

/-- An externally observable step of a queue operation: an in-memory
mutation of the queue, a write of the whole queue to durable storage, a
broadcast to the subscribed listeners, or a network call for the item with
the given id. -/
inductive QueueEvent where
  | mutate
  | persist
  | notify
  | attempt (id : String)
deriving DecidableEq, Repr

/-- Scan of an event trace with a dirty flag: a mutation raises it, a
persistence write clears it, and a notification is admissible only while
it is clear. -/
def traceOkAux : Bool → List QueueEvent → Bool
  | _, [] => true
  | _, .mutate :: es => traceOkAux true es
  | _, .persist :: es => traceOkAux false es
  | dirty, .notify :: es => !dirty && traceOkAux dirty es
  | dirty, .attempt _ :: es => traceOkAux dirty es

/-- A trace in which every notification is preceded by a persistence write
covering every mutation before it. -/
def traceOk (es : List QueueEvent) : Bool :=
  traceOkAux false es

/-- The ids of the network calls of a trace, in order. -/
def attemptsOf (es : List QueueEvent) : List String :=
  es.filterMap (fun e => match e with | .attempt i => some i | _ => none)

/-- The mutable fields of the OfflineQueueManager read or written by
processQueue. -/
structure SyncState where
  queue : List OfflineQueueItem
  isProcessing : Bool := false
  isSyncing : Bool := false
deriving DecidableEq, Repr

/-- processItem together with its event trace: a found entry produces a
status mutation, the network call, and the outcome mutation; an absent id
produces nothing. -/
def processItemOp (q : List OfflineQueueItem) (item : OfflineQueueItem)
    (result : ClassifiedResult) (now : Nat) :
    List OfflineQueueItem × List QueueEvent :=
  (processItem q item result now,
   if (q.find? (fun x => x.id == item.id)).isNone then []
   else [.mutate, .attempt item.id, .mutate])

/-- processQueue together with its event trace: the two guards return with
no events; otherwise the batch loop runs and the finally block persists
once and notifies once, in that order. -/
def processQueueOp (s : SyncState) (online : Bool)
    (exec : OfflineQueueItem → ClassifiedResult) (now : Nat) :
    SyncState × List QueueEvent :=
  if s.isProcessing || s.queue.length == 0 then (s, [])
  else if !online then (s, [])
  else
    let r := (selectBatch s.queue).foldl
      (fun (acc : List OfflineQueueItem × List QueueEvent) it =>
        ((processItemOp acc.1 it (exec it) now).1,
         acc.2 ++ (processItemOp acc.1 it (exec it) now).2))
      (s.queue, [])
    ({ queue := r.1, isProcessing := false, isSyncing := false },
     r.2 ++ [.persist, .notify])

/-- enqueue together with its event trace: append and re-sort (a
mutation), persist, notify, and, when the reachability fetch reports
online, the fire-and-forget drain whose own events follow. -/
def enqueueOp (s : SyncState) (id type : String) (payload : Payload) (now : Nat)
    (opts : EnqueueOptions) (online : Bool)
    (exec : OfflineQueueItem → ClassifiedResult) :
    SyncState × List QueueEvent :=
  let s1 : SyncState := { s with queue := enqueue s.queue id type payload now opts }
  if online then
    let r := processQueueOp s1 online exec now
    (r.1, [.mutate, .persist, .notify] ++ r.2)
  else (s1, [.mutate, .persist, .notify])

/-- removeItem together with its event trace: filter (a mutation),
persist, notify. -/
def removeItemOp (s : SyncState) (id : String) : SyncState × List QueueEvent :=
  ({ s with queue := removeItem s.queue id }, [.mutate, .persist, .notify])

/-- Where one invocation of processQueue stands. atStart is before the
guard line; atFetch is suspended at the awaited NetInfo.fetch() call,
which the source places after the guard reads isProcessing but before
anything sets it; finished is after the return. -/
inductive InvPhase where
  | atStart
  | atFetch
  | finished
deriving DecidableEq, Repr

/-- One invocation of processQueue: its phase, how many network calls it
has performed, and whether it returned at the single-flight guard. -/
structure Invocation where
  phase : InvPhase
  attempts : Nat := 0
  returnedAtGuard : Bool := false
deriving DecidableEq, Repr

/-- One scheduler step of an invocation of processQueue. From atStart the
guard runs synchronously: it returns when isProcessing is set or the queue
is empty, and otherwise the invocation suspends at the NetInfo.fetch
await with isProcessing still clear. From atFetch the resumed invocation
returns offline, or sets the flags, drains the batch, and clears the
flags in the finally block; this whole section is taken as one step,
which only restricts the schedules the model can describe. -/
def stepInvocation (online : Bool) (exec : OfflineQueueItem → ClassifiedResult)
    (now : Nat) (s : SyncState) (inv : Invocation) : SyncState × Invocation :=
  match inv.phase with
  | .atStart =>
    if s.isProcessing || s.queue.length == 0 then
      (s, { inv with phase := .finished, returnedAtGuard := true })
    else (s, { inv with phase := .atFetch })
  | .atFetch =>
    if !online then (s, { inv with phase := .finished })
    else
      ({ queue := drainBatch s.queue exec now
         isProcessing := false
         isSyncing := false },
       { inv with phase := .finished, attempts := (selectBatch s.queue).length })
  | .finished => (s, inv)

/-- Run two invocations of processQueue against the shared state under a
schedule: true steps the first invocation, false the second. -/
def runTwo (online : Bool) (exec : OfflineQueueItem → ClassifiedResult) (now : Nat) :
    SyncState → Invocation → Invocation → List Bool →
    SyncState × Invocation × Invocation
  | s, a, b, [] => (s, a, b)
  | s, a, b, pick :: rest =>
    if pick then
      let r := stepInvocation online exec now s a
      runTwo online exec now r.1 r.2 b rest
    else
      let r := stepInvocation online exec now s b
      runTwo online exec now r.1 a r.2 rest

/-- Concrete queue item used by the C2 witness. -/
def c2item : OfflineQueueItem :=
  { mkQueueItem "b" "task_update" [("x", .vNat 1)] 0 {} with
      conflictResolution := .client_wins }

/-- Concrete failed item used by the C9 witness. -/
def c9item : OfflineQueueItem :=
  { mkQueueItem "r" "report_submit" [] 4 {} with status := .failed, retryCount := 5 }

/-- Concrete very old pending item used by the C10 witness. -/
def c10item : OfflineQueueItem :=
  mkQueueItem "p" "location_update" [] 0 {}

/-- The conflict flag executeAction reads off a resolved response. -/
def respConflict (r : ApiResponse) : Bool :=
  match r.data with
  | some d => d.conflict
  | none => false

/-- Concrete item of the C1 counterexample: enqueued with maxRetries 1. -/
def c1item : OfflineQueueItem :=
  mkQueueItem "a" "task_update" [] 0 { maxRetries := some 1 }

/-- An executor whose network call always fails. -/
def c1exec : OfflineQueueItem → ClassifiedResult :=
  fun _ => failRes "Network error"

/-- Concrete item of the C1 witness: failed with retryCount 7 already
past its maxRetries 5. -/
def c1witnessItem : OfflineQueueItem :=
  { mkQueueItem "w" "task_update" [] 0 {} with
      status := .failed, retryCount := 7, maxRetries := 5 }

/-- Concrete pending item of the C3 run. -/
def c3item : OfflineQueueItem :=
  mkQueueItem "a" "attendance_check_in" [] 0 {}

/-- An executor whose network call always fails, for the C3 run. -/
def c3exec : OfflineQueueItem → ClassifiedResult :=
  fun _ => failRes "Network error"

/-- The schedule of the C3 run: each invocation runs its guard while the
other is suspended at the NetInfo.fetch await, then each resumes and
drains. -/
def c3schedule : List Bool :=
  [true, false, true, false]

/-- The C3 run: two invocations of processQueue against a shared state
holding one pending item, online. -/
def c3run : SyncState × Invocation × Invocation :=
  runTwo true c3exec 1 { queue := [c3item] }
    ⟨.atStart, 0, false⟩ ⟨.atStart, 0, false⟩ c3schedule

/-- The updaters of the queue manager never change priority or timestamp. -/
def keyPreserving (f : OfflineQueueItem → OfflineQueueItem) : Prop :=
  ∀ x, (f x).priority = x.priority ∧ (f x).timestamp = x.timestamp

/-- Some entry of the queue carries the given id. -/
def hasId (a : String) (q : List OfflineQueueItem) : Prop :=
  ∃ y ∈ q, y.id = a

/-- A concrete two-element sorted queue for the C5 witness. -/
def c5queue : List OfflineQueueItem :=
  [mkQueueItem "hi" "attendance_check_in" [] 5 {},
   mkQueueItem "lo" "photo_upload" [] 1 {}]

/-- Traces made only of mutations and network calls (the body of a batch
loop emits nothing else). -/
def onlyMutAtt (evs : List QueueEvent) : Prop :=
  ∀ e ∈ evs, e = .mutate ∨ ∃ i, e = .attempt i

/-! ## Helper lemmas -/

lemma updateFirst_append_cons (p : OfflineQueueItem → Bool)
    (f : OfflineQueueItem → OfflineQueueItem) (pre post : List OfflineQueueItem)
    (x : OfflineQueueItem) (h : ∀ y ∈ pre, p y = false) (hx : p x = true) :
    updateFirst p f (pre ++ x :: post) = pre ++ f x :: post := by
  induction pre with
  | nil => simp [updateFirst, hx]
  | cons y ys ih =>
    have hy : p y = false := h y (List.mem_cons_self y ys)
    simp only [List.cons_append, updateFirst, hy, Bool.false_eq_true, if_false,
      List.cons.injEq, true_and]
    exact ih (fun z hz => h z (List.mem_cons_of_mem y hz))

lemma find?_append_cons (p : OfflineQueueItem → Bool) (pre post : List OfflineQueueItem)
    (x : OfflineQueueItem) (h : ∀ y ∈ pre, p y = false) (hx : p x = true) :
    (pre ++ x :: post).find? p = some x := by
  induction pre with
  | nil => simp [List.find?, hx]
  | cons y ys ih =>
    have hy : p y = false := h y (List.mem_cons_self y ys)
    simp only [List.cons_append, List.find?, hy]
    exact ih (fun z hz => h z (List.mem_cons_of_mem y hz))

lemma filter_ne_append_cons (pre post : List OfflineQueueItem) (x : OfflineQueueItem)
    (hpre : ∀ y ∈ pre, y.id ≠ x.id) (hpost : ∀ y ∈ post, y.id ≠ x.id) :
    (pre ++ x :: post).filter (fun y => y.id != x.id) = pre ++ post := by
  rw [List.filter_append, List.filter_cons]
  have hx : ((x.id != x.id) = true) = False := by simp
  simp only [hx, if_false]
  rw [List.filter_eq_self.mpr (fun y hy => by simpa using hpre y hy),
    List.filter_eq_self.mpr (fun y hy => by simpa using hpost y hy)]

lemma jget_append (k : String) (a b : Payload) :
    jget k (a ++ b) = (jget k b).orElse (fun _ => jget k a) := by
  induction a with
  | nil => cases hb : jget k b <;> simp [jget, hb, Option.orElse]
  | cons kv a ih =>
    cases hb : jget k b <;> cases ha : jget k a <;>
      simp [jget, ih, hb, ha, Option.orElse]

lemma jget_mergeChanges (k : String) (localP serverP : Payload) (now : Nat)
    (h1 : k ≠ "_merged") (h2 : k ≠ "_mergedAt") :
    jget k (mergeChanges localP serverP now) =
      (jget k localP).orElse (fun _ => jget k serverP) := by
  have e1 : (("_merged" : String) == k) = false :=
    beq_eq_false_iff_ne.mpr (Ne.symm h1)
  have e2 : (("_mergedAt" : String) == k) = false :=
    beq_eq_false_iff_ne.mpr (Ne.symm h2)
  have htags : jget k [("_merged", Value.vBool true), ("_mergedAt", Value.vNat now)] = none := by
    simp [jget, e1, e2]
  unfold mergeChanges
  rw [jget_append, jget_append, htags]
  cases hl : jget k localP <;> simp [Option.orElse]

lemma jget_mergeChanges_merged (localP serverP : Payload) (now : Nat) :
    jget "_merged" (mergeChanges localP serverP now) = some (.vBool true) := by
  have htags :
      jget "_merged" [("_merged", Value.vBool true), ("_mergedAt", Value.vNat now)] =
        some (.vBool true) := by
    simp [jget]
  unfold mergeChanges
  rw [jget_append, jget_append, htags]
  simp [Option.orElse]

/-! ## C2: the four conflict resolution strategies -/

/-- C2. For a queue item present in the queue (with no earlier entry of
the same id) and an optional server payload, handleConflict makes exactly
the specified transition: client_wins bumps localVersion, keeps the
payload, and sets status pending; server_wins removes the item and leaves
every other entry untouched; merge installs the spread-merged payload in
which local bindings shadow server bindings, adds the _merged tag, bumps
localVersion, and sets status pending; manual sets status failed, records
the _version of the server payload as serverVersion, and keeps the
payload. -/
theorem C2_conflict_strategies (pre post : List OfflineQueueItem)
    (item : OfflineQueueItem) (sd : Option Payload) (now : Nat)
    (hpre : ∀ x ∈ pre, x.id ≠ item.id) (hpost : ∀ x ∈ post, x.id ≠ item.id) :
    (item.conflictResolution = .client_wins →
      handleConflict (pre ++ item :: post) item sd now =
        pre ++ { item with localVersion := item.localVersion + 1,
                           status := .pending } :: post)
  ∧ (item.conflictResolution = .server_wins →
      handleConflict (pre ++ item :: post) item sd now = pre ++ post)
  ∧ (item.conflictResolution = .merge →
      handleConflict (pre ++ item :: post) item sd now =
        pre ++ { item with payload := mergeChanges item.payload (sd.getD []) now,
                           localVersion := item.localVersion + 1,
                           status := .pending } :: post)
  ∧ (item.conflictResolution = .manual →
      handleConflict (pre ++ item :: post) item sd now =
        pre ++ { item with status := .failed,
                           errorMessage := some "Conflict requires manual resolution",
                           serverVersion := sd.bind (jget "_version") } :: post)
  ∧ (∀ k, k ≠ "_merged" → k ≠ "_mergedAt" →
      jget k (mergeChanges item.payload (sd.getD []) now) =
        (jget k item.payload).orElse (fun _ => jget k (sd.getD [])))
  ∧ jget "_merged" (mergeChanges item.payload (sd.getD []) now) =
      some (.vBool true) := by
  have hpre2 : ∀ y ∈ pre, (y.id == item.id) = false :=
    fun y hy => beq_eq_false_iff_ne.mpr (hpre y hy)
  have hself : (item.id == item.id) = true := beq_self_eq_true item.id
  have hcond :
      ¬(((pre ++ item :: post).find? (fun x => x.id == item.id)).isNone = true) := by
    rw [find?_append_cons _ _ _ _ hpre2 hself]
    simp
  refine ⟨?_, ?_, ?_, ?_, ?_, ?_⟩
  · intro hres
    unfold handleConflict
    rw [if_neg hcond]
    simp only [hres]
    rw [updateFirst_append_cons _ _ pre post item hpre2 hself]
    simp [hres]
  · intro hres
    unfold handleConflict
    rw [if_neg hcond]
    simp only [hres]
    exact filter_ne_append_cons pre post item hpre hpost
  · intro hres
    unfold handleConflict
    rw [if_neg hcond]
    simp only [hres]
    rw [updateFirst_append_cons _ _ pre post item hpre2 hself]
    simp [hres]
  · intro hres
    unfold handleConflict
    rw [if_neg hcond]
    simp only [hres]
    rw [updateFirst_append_cons _ _ pre post item hpre2 hself]
    simp [hres]
  · exact fun k h1 h2 => jget_mergeChanges k item.payload (sd.getD []) now h1 h2
  · exact jget_mergeChanges_merged item.payload (sd.getD []) now

/-- Witness for C2 at a concrete one-element queue with the client_wins
strategy: the resolver bumps localVersion to 2, keeps the payload, and
sets the status back to pending. -/
theorem C2_conflict_strategies_witness :
    handleConflict [c2item] c2item none 3 =
      [{ c2item with localVersion := 2, status := .pending }] :=
  (C2_conflict_strategies [] [] c2item none 3 (by simp) (by simp)).1 rfl

lemma sortQueue_perm (q : List OfflineQueueItem) : (sortQueue q).Perm q :=
  List.perm_insertionSort qle q

/-! ## C8: defaults assigned by enqueue -/

/-- C8. The item built by enqueue starts pending with localVersion 1 and
retryCount 0; its priority is the caller override when given, else the
static per-action-type default (100 for both attendance actions, 80 for
task_update, 60 for report_submit, 40 for location_update, 20 for
photo_upload); its conflictResolution is the caller override when given,
else the global default client_wins; and the built item is an entry of the
queue enqueue returns. -/
theorem C8_enqueue_defaults (q : List OfflineQueueItem) (id type : String)
    (payload : Payload) (now : Nat) (opts : EnqueueOptions) :
    (mkQueueItem id type payload now opts).status = .pending
  ∧ (mkQueueItem id type payload now opts).localVersion = 1
  ∧ (mkQueueItem id type payload now opts).retryCount = 0
  ∧ (mkQueueItem id type payload now opts).priority =
      opts.priority.getD (getDefaultPriority type)
  ∧ (mkQueueItem id type payload now opts).conflictResolution =
      opts.conflictResolution.getD OFFLINE_CONFIG.defaultConflictResolution
  ∧ OFFLINE_CONFIG.defaultConflictResolution = .client_wins
  ∧ getDefaultPriority "attendance_check_in" = 100
  ∧ getDefaultPriority "attendance_check_out" = 100
  ∧ getDefaultPriority "task_update" = 80
  ∧ getDefaultPriority "report_submit" = 60
  ∧ getDefaultPriority "location_update" = 40
  ∧ getDefaultPriority "photo_upload" = 20
  ∧ mkQueueItem id type payload now opts ∈ enqueue q id type payload now opts := by
  refine ⟨rfl, rfl, rfl, rfl, rfl, rfl, by decide, by decide, by decide, by decide,
    by decide, by decide, ?_⟩
  unfold enqueue
  exact (sortQueue_perm (q ++ [mkQueueItem id type payload now opts])).mem_iff.mpr
    (by simp)

/-! ## C4: enqueue does not validate the action type -/

/-- C4 counterexample. The claim says an actionType outside the closed
enumeration fails with InvalidActionType and adds nothing; in the code
enqueue never validates the type: a call with the unknown type
bogus_action succeeds and leaves the queue with exactly the new item,
whose priority is the fallback 50 of the default-priority record. -/
theorem C4_counterexample :
    "bogus_action" ∉ knownActionTypes
  ∧ enqueue [] "id-1" "bogus_action" [] 0 {} =
      [mkQueueItem "id-1" "bogus_action" [] 0 {}]
  ∧ (mkQueueItem "id-1" "bogus_action" [] 0 {}).priority = 50 :=
  ⟨by decide, by decide, by decide⟩

/-- C4 amended. enqueue performs no runtime validation of the actionType:
every call appends exactly one item to the queue, whatever the type
string; a type outside the six known action types receives the fallback
default priority 50 (and therewith the item, when the caller gives no
priority override). -/
theorem C4_amended (q : List OfflineQueueItem) (id type : String) (payload : Payload)
    (now : Nat) (opts : EnqueueOptions) :
    (enqueue q id type payload now opts).length = q.length + 1
  ∧ mkQueueItem id type payload now opts ∈ enqueue q id type payload now opts
  ∧ (type ∉ knownActionTypes → getDefaultPriority type = 50)
  ∧ (type ∉ knownActionTypes → opts.priority = none →
      (mkQueueItem id type payload now opts).priority = 50) := by
  have hdef : type ∉ knownActionTypes → getDefaultPriority type = 50 := by
    intro hmem
    simp only [knownActionTypes, List.mem_cons, List.not_mem_nil, or_false, not_or] at hmem
    obtain ⟨h1, h2, h3, h4, h5, h6⟩ := hmem
    simp [getDefaultPriority, h1, h2, h3, h4, h5, h6]
  refine ⟨?_, ?_, hdef, ?_⟩
  · unfold enqueue
    rw [(sortQueue_perm (q ++ [mkQueueItem id type payload now opts])).length_eq]
    simp
  · unfold enqueue
    exact (sortQueue_perm (q ++ [mkQueueItem id type payload now opts])).mem_iff.mpr
      (by simp)
  · intro hmem hopts
    simp [mkQueueItem, hopts, hdef hmem]

/-- Witness for C4 amended at the concrete unknown type bogus_action. -/
theorem C4_amended_witness :
    "bogus_action" ∉ knownActionTypes ∧
      (enqueue [] "id-1" "bogus_action" [] 0 {}).length = 1 :=
  ⟨by decide, (C4_amended [] "id-1" "bogus_action" [] 0 {}).1⟩

/-! ## C9: manual retry restores the retry budget -/

/-- C9. retryItem on an id whose first queue occurrence is the given item
resets that item to status pending with retryCount 0 and changes nothing
else; retryItem on an id absent from the queue returns the queue
unchanged; retryAllFailed maps every failed entry to the same reset and
keeps every other entry identical, position by position. -/
theorem C9_manual_retry (pre post q : List OfflineQueueItem)
    (item : OfflineQueueItem) (absentId : String) :
    ((∀ x ∈ pre, x.id ≠ item.id) →
      retryItem (pre ++ item :: post) item.id =
        pre ++ { item with status := .pending, retryCount := 0 } :: post)
  ∧ ((∀ x ∈ q, x.id ≠ absentId) → retryItem q absentId = q)
  ∧ (∀ i : Nat, (retryAllFailed q)[i]? = q[i]?.map
      (fun it => if it.status == .failed
        then { it with status := .pending, retryCount := 0 } else it)) := by
  refine ⟨?_, ?_, ?_⟩
  · intro hpre
    have hpre2 : ∀ y ∈ pre, (y.id == item.id) = false :=
      fun y hy => beq_eq_false_iff_ne.mpr (hpre y hy)
    have hself : (item.id == item.id) = true := beq_self_eq_true item.id
    have hcond :
        ¬(((pre ++ item :: post).find? (fun x => x.id == item.id)).isNone = true) := by
      rw [find?_append_cons _ _ _ _ hpre2 hself]
      simp
    unfold retryItem
    rw [if_neg hcond]
    rw [updateFirst_append_cons _ _ pre post item hpre2 hself]
  · intro habs
    have hnone : q.find? (fun x => x.id == absentId) = none := by
      rw [List.find?_eq_none]
      intro x hx
      simpa using habs x hx
    unfold retryItem
    rw [if_pos (by rw [hnone]; rfl)]
  · intro i
    unfold retryAllFailed
    simp [List.getElem?_map]

/-- Witness for C9 at a one-element queue holding a failed item with an
exhausted retry budget: retryItem resets it, and retryItem on an absent id
leaves the queue alone. -/
theorem C9_manual_retry_witness :
    retryItem [c9item] c9item.id = [{ c9item with status := .pending, retryCount := 0 }]
  ∧ retryItem [c9item] "missing" = [c9item] :=
  ⟨(C9_manual_retry [] [] [c9item] c9item "missing").1 (by simp),
   (C9_manual_retry [] [] [c9item] c9item "missing").2.1 (by decide)⟩

/-! ## C10: age-based cleanup removes only old completed items -/

/-- C10. clearOldItems returns a sublist of the queue; an entry survives
exactly when it is not completed or its timestamp is after the cutoff
Date.now() minus maxAgeMs (so an entry is removed only when it is
completed and at or before the cutoff); and every pending, syncing or
failed entry survives whatever its age. -/
theorem C10_clear_old_items (q : List OfflineQueueItem) (now maxAgeMs : Nat) :
    (clearOldItems q now maxAgeMs).Sublist q
  ∧ (∀ it, it ∈ clearOldItems q now maxAgeMs ↔
      it ∈ q ∧ (it.status = .completed →
        ((now : Int) - (maxAgeMs : Int)) < (it.timestamp : Int)))
  ∧ (∀ it ∈ q,
      (it.status = .pending ∨ it.status = .syncing ∨ it.status = .failed) →
      it ∈ clearOldItems q now maxAgeMs) := by
  have hiff : ∀ it : OfflineQueueItem,
      (((it.status != .completed) ||
        decide (((now : Int) - (maxAgeMs : Int)) < (it.timestamp : Int))) = true) ↔
      (it.status = .completed → ((now : Int) - (maxAgeMs : Int)) < (it.timestamp : Int)) := by
    intro it
    constructor
    · intro h hc
      rcases Bool.or_eq_true_iff.mp h with h1 | h1
      · exact absurd hc (by simpa using h1)
      · exact of_decide_eq_true h1
    · intro h
      by_cases hc : it.status = .completed
      · exact Bool.or_eq_true_iff.mpr (Or.inr (decide_eq_true (h hc)))
      · exact Bool.or_eq_true_iff.mpr (Or.inl (by simpa using hc))
  refine ⟨List.filter_sublist _, ?_, ?_⟩
  · intro it
    rw [clearOldItems, List.mem_filter, hiff it]
  · intro it hit hst
    have hne : it.status ≠ .completed := by
      rcases hst with h | h | h <;> rw [h] <;> decide
    rw [clearOldItems, List.mem_filter, hiff it]
    exact ⟨hit, fun hc => absurd hc hne⟩

/-- Witness for C10: an arbitrarily old pending item survives a cleanup
whose cutoff lies far past its timestamp. -/
theorem C10_clear_old_items_witness :
    c10item ∈ clearOldItems [c10item] 1000000 0 :=
  (C10_clear_old_items [c10item] 1000000 0).2.2 c10item (by simp) (Or.inl rfl)

/-! ## C6: outcome classification of executeAction -/

/-- C6 counterexample. The claim says Success is never returned for a
response that reports a server-side error; but executeAction never reads
the success flag of the response: the NOT_FOUND failure response of the
check-out handler (success false, an error object, no conflict data) is
classified as a plain Success. -/
theorem C6_counterexample :
    (mockCheckOutResponse false).success = false
  ∧ (mockCheckOutResponse false).error.isSome = true
  ∧ executeAction (.replied (mockCheckOutResponse false)) = { success := true } :=
  ⟨by decide, by decide, by decide⟩

/-- C6 amended. executeAction classifies by the conflict flag of the
response data and by thrown errors only: it returns Success exactly for a
resolved response whose data carries no truthy conflict flag (the success
flag and error object of the response are never consulted, so error
responses without a conflict flag also classify as Success); it returns
Conflict exactly for a resolved response with a truthy conflict flag or a
rejection whose message contains 409; and it returns a retryable failure
exactly for any other rejection. -/
theorem C6_amended (po : PostOutcome) :
    ((executeAction po).success = true ↔
      ∃ resp, po = .replied resp ∧ respConflict resp = false)
  ∧ ((executeAction po).conflict = true ↔
      ((∃ resp, po = .replied resp ∧ respConflict resp = true)
        ∨ (∃ msg, po = .threw msg ∧ includesStr msg "409" = true)))
  ∧ (((executeAction po).success = false ∧ (executeAction po).conflict = false) ↔
      ∃ msg, po = .threw msg ∧ includesStr msg "409" = false) := by
  cases po with
  | replied resp =>
    cases hd : resp.data with
    | none => simp [executeAction, respConflict, hd]
    | some d =>
      cases hc : d.conflict <;> simp [executeAction, respConflict, hd, hc]
  | threw msg =>
    cases hi : includesStr msg "409" <;> simp [executeAction, failRes, hi]

/-- Witness for C6 amended: the concrete NOT_FOUND check-out response is
classified as Success through the amended characterization. -/
theorem C6_amended_witness :
    (executeAction (.replied (mockCheckOutResponse false))).success = true :=
  (C6_amended (.replied (mockCheckOutResponse false))).1.mpr
    ⟨mockCheckOutResponse false, rfl, by decide⟩

/-! ## C1: the retry budget does not stop automatic attempts -/

/-- C1 counterexample. The claim says an item whose retryCount reached
maxRetries is never selected or attempted again and retryCount never
exceeds maxRetries. Starting from a freshly enqueued item with
maxRetries 1 and an always-failing executor: the first drain leaves it
failed with retryCount 1 = maxRetries; the next drain selects the whole
queue again (the batch filter checks only the status), re-attempts the
item (lastAttempt moves to the second drain time) and leaves
retryCount 2 > maxRetries. -/
theorem C1_counterexample :
    c1item.maxRetries = 1
  ∧ (drainBatch [c1item] c1exec 1).map (fun it => (it.retryCount, it.status)) =
      [(1, .failed)]
  ∧ selectBatch (drainBatch [c1item] c1exec 1) = drainBatch [c1item] c1exec 1
  ∧ (drainBatch (drainBatch [c1item] c1exec 1) c1exec 2).map
      (fun it => (it.retryCount, it.status)) = [(2, .failed)]
  ∧ (drainBatch (drainBatch [c1item] c1exec 1) c1exec 2).map
      (fun it => it.lastAttempt) = [some 2] := by
  decide

/-- C1 amended. A failed attempt always increments retryCount by exactly
one and sets the status to failed precisely when the new retryCount has
reached maxRetries; but batch eligibility checks only the status, so a
pending or failed item is selected and attempted by every drain whatever
its retryCount, which can therefore grow past maxRetries without bound. -/
theorem C1_amended (it : OfflineQueueItem) (msg : String) (now : Nat)
    (h : it.status = .pending ∨ it.status = .failed) :
    selectBatch [it] = [it]
  ∧ drainBatch [it] (fun _ => failRes msg) now =
      [{ it with
          status := if it.maxRetries ≤ it.retryCount + 1 then .failed else .pending,
          retryCount := it.retryCount + 1,
          errorMessage := some msg,
          lastAttempt := some now }] := by
  have helig : eligibleForBatch it = true := by
    rcases h with h | h <;> simp [eligibleForBatch, h]
  have hfil : [it].filter eligibleForBatch = [it] := by
    rw [List.filter_cons]
    simp [helig]
  have hlen : ([it]).length ≤ OFFLINE_CONFIG.syncBatchSize := by
    simp [OFFLINE_CONFIG]
  have hsel : selectBatch [it] = [it] := by
    unfold selectBatch
    rw [hfil, List.take_of_length_le hlen]
  refine ⟨hsel, ?_⟩
  unfold drainBatch
  rw [hsel]
  simp [processItem, updateFirst, failRes, List.find?]

/-- Witness for C1 amended: the exhausted item is still selected and
re-attempted, moving its retryCount from 7 to 8. -/
theorem C1_amended_witness :
    selectBatch [c1witnessItem] = [c1witnessItem]
  ∧ drainBatch [c1witnessItem] (fun _ => failRes "boom") 9 =
      [{ c1witnessItem with
          status := .failed, retryCount := 8,
          errorMessage := some "boom", lastAttempt := some 9 }] := by
  have h := C1_amended c1witnessItem "boom" 9 (Or.inr rfl)
  simpa using h

/-! ## C3: the single-flight guard is defeated by the awaited fetch -/

/-- C3. The claim (and the intent of the isProcessing flag) is that of two
concurrent processQueue invocations the second returns at the guard and
attempts nothing. The source reads the guard before the awaited
NetInfo.fetch call but sets isProcessing only after it resolves, so under
the schedule in which the second invocation starts while the first is
suspended at that await, both invocations finish having performed one
network call each for the same single queue item, and the second did not
return at the guard. -/
theorem C3_code_bug :
    c3run.2.1.attempts = 1
  ∧ c3run.2.2.attempts = 1
  ∧ c3run.2.2.returnedAtGuard = false
  ∧ c3run.2.1.phase = .finished
  ∧ c3run.2.2.phase = .finished := by
  decide

/-! ## C5: sortedness machinery -/

lemma qle_congr_left {a a2 b : OfflineQueueItem} (hp : a.priority = a2.priority)
    (ht : a.timestamp = a2.timestamp) (h : qle a b) : qle a2 b := by
  unfold qle at h ⊢
  omega

lemma qle_congr_right {a b b2 : OfflineQueueItem} (hp : b.priority = b2.priority)
    (ht : b.timestamp = b2.timestamp) (h : qle a b) : qle a b2 := by
  unfold qle at h ⊢
  omega

lemma mem_updateFirst {p : OfflineQueueItem → Bool}
    {f : OfflineQueueItem → OfflineQueueItem} {y : OfflineQueueItem} :
    ∀ {l : List OfflineQueueItem}, y ∈ updateFirst p f l →
      y ∈ l ∨ ∃ z ∈ l, y = f z := by
  intro l
  induction l with
  | nil => intro h; simp [updateFirst] at h
  | cons x xs ih =>
    intro hy
    by_cases hx : p x = true
    · rw [updateFirst, if_pos hx] at hy
      rcases List.mem_cons.mp hy with hy | hy
      · exact Or.inr ⟨x, List.mem_cons_self x xs, hy⟩
      · exact Or.inl (List.mem_cons_of_mem x hy)
    · rw [updateFirst, if_neg hx] at hy
      rcases List.mem_cons.mp hy with hy | hy
      · exact Or.inl (hy ▸ List.mem_cons_self x xs)
      · rcases ih hy with h | ⟨z, hz, hzf⟩
        · exact Or.inl (List.mem_cons_of_mem x h)
        · exact Or.inr ⟨z, List.mem_cons_of_mem x hz, hzf⟩

lemma QSorted_updateFirst (p : OfflineQueueItem → Bool)
    (f : OfflineQueueItem → OfflineQueueItem) (hf : keyPreserving f) :
    ∀ {l : List OfflineQueueItem}, QSorted l → QSorted (updateFirst p f l) := by
  intro l
  induction l with
  | nil => intro h; exact h
  | cons x xs ih =>
    intro h
    rw [QSorted, List.sorted_cons] at h
    obtain ⟨hx, hxs⟩ := h
    by_cases hp : p x = true
    · rw [updateFirst, if_pos hp, QSorted, List.sorted_cons]
      exact ⟨fun b hb => qle_congr_left (hf x).1.symm (hf x).2.symm (hx b hb), hxs⟩
    · rw [updateFirst, if_neg hp, QSorted, List.sorted_cons]
      refine ⟨?_, ih hxs⟩
      intro b hb
      rcases mem_updateFirst hb with h | ⟨z, hz, hzf⟩
      · exact hx b h
      · exact hzf ▸ qle_congr_right (hf z).1.symm (hf z).2.symm (hx z hz)

lemma QSorted_filter (p : OfflineQueueItem → Bool) {l : List OfflineQueueItem}
    (h : QSorted l) : QSorted (l.filter p) :=
  List.Pairwise.sublist (List.filter_sublist l) h

lemma QSorted_handleConflict (q : List OfflineQueueItem) (item : OfflineQueueItem)
    (sd : Option Payload) (now : Nat) (h : QSorted q) :
    QSorted (handleConflict q item sd now) := by
  unfold handleConflict
  split
  · exact h
  · split
    · exact QSorted_updateFirst _ _ (by intro x; exact ⟨rfl, rfl⟩) h
    · exact QSorted_filter _ h
    · exact QSorted_updateFirst _ _ (by intro x; exact ⟨rfl, rfl⟩) h
    · exact QSorted_updateFirst _ _ (by intro x; exact ⟨rfl, rfl⟩) h

lemma QSorted_processItem (q : List OfflineQueueItem) (item : OfflineQueueItem)
    (result : ClassifiedResult) (now : Nat) (h : QSorted q) :
    QSorted (processItem q item result now) := by
  unfold processItem
  split
  · exact h
  · split
    · exact QSorted_filter _
        (QSorted_updateFirst _ _ (by intro x; exact ⟨rfl, rfl⟩)
          (QSorted_updateFirst _ _ (by intro x; exact ⟨rfl, rfl⟩) h))
    · split
      · exact QSorted_handleConflict _ _ _ _
          (QSorted_updateFirst _ _ (by intro x; exact ⟨rfl, rfl⟩) h)
      · exact QSorted_updateFirst _ _ (by intro x; exact ⟨rfl, rfl⟩)
          (QSorted_updateFirst _ _ (by intro x; exact ⟨rfl, rfl⟩) h)

lemma QSorted_foldl_processItem (exec : OfflineQueueItem → ClassifiedResult)
    (now : Nat) :
    ∀ (batch q : List OfflineQueueItem), QSorted q →
      QSorted (batch.foldl (fun acc it => processItem acc it (exec it) now) q) := by
  intro batch
  induction batch with
  | nil => intro q h; exact h
  | cons it rest ih =>
    intro q h
    exact ih _ (QSorted_processItem q it (exec it) now h)

lemma QSorted_drainBatch (q : List OfflineQueueItem)
    (exec : OfflineQueueItem → ClassifiedResult) (now : Nat) (h : QSorted q) :
    QSorted (drainBatch q exec now) :=
  QSorted_foldl_processItem exec now (selectBatch q) q h

lemma selectBatch_sublist (q : List OfflineQueueItem) : (selectBatch q).Sublist q :=
  (List.take_sublist _ _).trans (List.filter_sublist q)

lemma QSorted_selectBatch (q : List OfflineQueueItem) (h : QSorted q) :
    QSorted (selectBatch q) :=
  List.Pairwise.sublist (selectBatch_sublist q) h

lemma QSorted_retryItem (q : List OfflineQueueItem) (id : String) (h : QSorted q) :
    QSorted (retryItem q id) := by
  unfold retryItem
  split
  · exact h
  · exact QSorted_updateFirst _ _ (by intro x; exact ⟨rfl, rfl⟩) h

lemma QSorted_map_keyPreserving (f : OfflineQueueItem → OfflineQueueItem)
    (hf : keyPreserving f) {l : List OfflineQueueItem} (h : QSorted l) :
    QSorted (l.map f) := by
  refine List.Pairwise.map f ?_ h
  intro a b hab
  exact qle_congr_left (hf a).1.symm (hf a).2.symm
    (qle_congr_right (hf b).1.symm (hf b).2.symm hab)

lemma QSorted_retryAllFailed (q : List OfflineQueueItem) (h : QSorted q) :
    QSorted (retryAllFailed q) := by
  unfold retryAllFailed
  refine QSorted_map_keyPreserving _ ?_ h
  intro x
  by_cases hx : (x.status == QueueStatus.failed) = true <;> simp [hx]

lemma hasId_find? {a : String} {q : List OfflineQueueItem} (h : hasId a q) :
    (q.find? (fun x => x.id == a)).isNone = false := by
  obtain ⟨y, hy, hid⟩ := h
  induction q with
  | nil => simp at hy
  | cons x xs ih =>
    cases hx : x.id == a with
    | true => simp [List.find?, hx]
    | false =>
      rcases List.mem_cons.mp hy with hxy | hxy
      · subst hxy
        rw [hid] at hx
        simp at hx
      · simp only [List.find?, hx]
        exact ih hxy

lemma hasId_updateFirst (p : OfflineQueueItem → Bool)
    (f : OfflineQueueItem → OfflineQueueItem) (hf : ∀ x, (f x).id = x.id)
    {a : String} : ∀ {q : List OfflineQueueItem}, hasId a q →
      hasId a (updateFirst p f q) := by
  intro q
  induction q with
  | nil => intro h; exact h
  | cons x xs ih =>
    intro h
    obtain ⟨y, hy, hid⟩ := h
    by_cases hx : p x = true
    · rw [updateFirst, if_pos hx]
      rcases List.mem_cons.mp hy with hxy | hxy
      · exact ⟨f x, List.mem_cons_self _ _, by rw [hf x, ← hxy, hid]⟩
      · exact ⟨y, List.mem_cons_of_mem _ hxy, hid⟩
    · rw [updateFirst, if_neg hx]
      rcases List.mem_cons.mp hy with hxy | hxy
      · exact ⟨x, List.mem_cons_self _ _, by rw [← hxy, hid]⟩
      · obtain ⟨z, hz, hzid⟩ := ih ⟨y, hxy, hid⟩
        exact ⟨z, List.mem_cons_of_mem _ hz, hzid⟩

lemma hasId_filter_ne {a b : String} {q : List OfflineQueueItem} (hne : a ≠ b)
    (h : hasId a q) : hasId a (q.filter (fun x => x.id != b)) := by
  obtain ⟨y, hy, hid⟩ := h
  exact ⟨y, List.mem_filter.mpr ⟨hy, by simp [hid, hne]⟩, hid⟩

lemma hasId_handleConflict {a : String} {q : List OfflineQueueItem}
    {item : OfflineQueueItem} {sd : Option Payload} {now : Nat}
    (hne : a ≠ item.id) (h : hasId a q) :
    hasId a (handleConflict q item sd now) := by
  unfold handleConflict
  split
  · exact h
  · split
    · exact hasId_updateFirst _ _ (by intro x; rfl) h
    · exact hasId_filter_ne hne h
    · exact hasId_updateFirst _ _ (by intro x; rfl) h
    · exact hasId_updateFirst _ _ (by intro x; rfl) h

lemma hasId_processItem {a : String} {q : List OfflineQueueItem}
    {item : OfflineQueueItem} {result : ClassifiedResult} {now : Nat}
    (hne : a ≠ item.id) (h : hasId a q) :
    hasId a (processItem q item result now) := by
  unfold processItem
  split
  · exact h
  · split
    · exact hasId_filter_ne hne
        (hasId_updateFirst _ _ (by intro x; rfl)
          (hasId_updateFirst _ _ (by intro x; rfl) h))
    · split
      · exact hasId_handleConflict hne
          (hasId_updateFirst _ _ (by intro x; rfl) h)
      · exact hasId_updateFirst _ _ (by intro x; rfl)
          (hasId_updateFirst _ _ (by intro x; rfl) h)

lemma attemptsOf_append (a b : List QueueEvent) :
    attemptsOf (a ++ b) = attemptsOf a ++ attemptsOf b :=
  List.filterMap_append a b _

lemma attempts_foldl (exec : OfflineQueueItem → ClassifiedResult) (now : Nat) :
    ∀ (batch : List OfflineQueueItem)
      (acc : List OfflineQueueItem × List QueueEvent),
      (∀ it ∈ batch, hasId it.id acc.1) →
      (batch.map (fun x => x.id)).Nodup →
      attemptsOf ((batch.foldl
        (fun (acc : List OfflineQueueItem × List QueueEvent) it =>
          ((processItemOp acc.1 it (exec it) now).1,
           acc.2 ++ (processItemOp acc.1 it (exec it) now).2)) acc).2)
        = attemptsOf acc.2 ++ batch.map (fun x => x.id) := by
  intro batch
  induction batch with
  | nil => intro acc hpres hnd; simp
  | cons it rest ih =>
    intro acc hpres hnd
    have hfound : (acc.1.find? (fun x => x.id == it.id)).isNone = false :=
      hasId_find? (hpres it (List.mem_cons_self _ _))
    have hfst : (processItemOp acc.1 it (exec it) now).1 =
        processItem acc.1 it (exec it) now := rfl
    have hevs : (processItemOp acc.1 it (exec it) now).2 =
        [.mutate, .attempt it.id, .mutate] := by
      unfold processItemOp
      rw [hfound]
      rfl
    rw [List.map_cons, List.nodup_cons] at hnd
    obtain ⟨hhead, htail⟩ := hnd
    have hpres2 : ∀ x ∈ rest, hasId x.id (processItem acc.1 it (exec it) now) := by
      intro x hx
      have hxne : x.id ≠ it.id := by
        intro hcontra
        exact hhead (hcontra ▸ List.mem_map_of_mem (fun z => z.id) hx)
      exact hasId_processItem hxne (hpres x (List.mem_cons_of_mem _ hx))
    simp only [List.foldl_cons, hfst, hevs]
    rw [ih (processItem acc.1 it (exec it) now,
          acc.2 ++ [QueueEvent.mutate, QueueEvent.attempt it.id, QueueEvent.mutate])
        hpres2 htail]
    rw [attemptsOf_append]
    simp [attemptsOf]

lemma processQueueOp_trace (q : List OfflineQueueItem)
    (exec : OfflineQueueItem → ClassifiedResult) (now : Nat) (h : q.length ≠ 0) :
    (processQueueOp ⟨q, false, false⟩ true exec now).2 =
      ((selectBatch q).foldl
        (fun (acc : List OfflineQueueItem × List QueueEvent) it =>
          ((processItemOp acc.1 it (exec it) now).1,
           acc.2 ++ (processItemOp acc.1 it (exec it) now).2)) (q, [])).2
      ++ [.persist, .notify] := by
  have hc1 : ¬(((⟨q, false, false⟩ : SyncState).isProcessing
      || (⟨q, false, false⟩ : SyncState).queue.length == 0) = true) := by
    simp [h]
  have hc2 : ¬((!true) = true) := by simp
  unfold processQueueOp
  rw [if_neg hc1, if_neg hc2]

/-! ## C5: the queue stays sorted and drains in order -/

/-- C5. The queue enqueue returns is sorted by (priority descending,
timestamp ascending); when the queue is sorted, removeItem, retryItem,
retryAllFailed, clearOldItems and a whole drain keep it sorted, the batch
a drain selects is itself sorted; and (for a queue of distinct ids, as
uuid assignment guarantees) the network calls of a drain are exactly the
selected batch, attempted in that sorted order. -/
theorem C5_sorted_invariant (q : List OfflineQueueItem) (id type rid : String)
    (payload : Payload) (now n m : Nat) (opts : EnqueueOptions)
    (exec : OfflineQueueItem → ClassifiedResult) :
    QSorted (enqueue q id type payload now opts)
  ∧ (QSorted q →
      QSorted (removeItem q rid)
    ∧ QSorted (retryItem q rid)
    ∧ QSorted (retryAllFailed q)
    ∧ QSorted (clearOldItems q n m)
    ∧ QSorted (drainBatch q exec now)
    ∧ QSorted (selectBatch q))
  ∧ ((q.map (fun x => x.id)).Nodup → q ≠ [] →
      attemptsOf (processQueueOp ⟨q, false, false⟩ true exec now).2 =
        (selectBatch q).map (fun x => x.id)) := by
  refine ⟨?_, ?_, ?_⟩
  · exact List.sorted_insertionSort qle _
  · intro hq
    exact ⟨QSorted_filter _ hq, QSorted_retryItem q rid hq, QSorted_retryAllFailed q hq,
      QSorted_filter _ hq, QSorted_drainBatch q exec now hq, QSorted_selectBatch q hq⟩
  · intro hnd hne
    have h0 : q.length ≠ 0 := fun hc => hne (List.length_eq_zero.mp hc)
    have hpres : ∀ it ∈ selectBatch q, hasId it.id q :=
      fun it hit => ⟨it, (selectBatch_sublist q).mem hit, rfl⟩
    have hbatchnd : ((selectBatch q).map (fun x => x.id)).Nodup :=
      hnd.sublist ((selectBatch_sublist q).map (fun x => x.id))
    rw [processQueueOp_trace q exec now h0, attemptsOf_append,
      attempts_foldl exec now (selectBatch q) (q, []) hpres hbatchnd]
    simp [attemptsOf]

/-- Witness for C5 at the concrete queue: it is sorted, a failing drain
keeps it sorted, and the drain attempts exactly the two items in queue
order. -/
theorem C5_sorted_invariant_witness :
    QSorted c5queue
  ∧ QSorted (drainBatch c5queue c1exec 9)
  ∧ attemptsOf (processQueueOp ⟨c5queue, false, false⟩ true c1exec 9).2 = ["hi", "lo"] := by
  refine ⟨by decide, ?_, ?_⟩
  · exact ((C5_sorted_invariant c5queue "x" "y" "z" [] 9 0 0 {} c1exec).2.1
      (by decide)).2.2.2.2.1
  · have h := (C5_sorted_invariant c5queue "x" "y" "z" [] 9 0 0 {} c1exec).2.2
      (by decide) (by decide)
    rw [h]
    decide

/-! ## C7: persistence precedes notification -/

lemma onlyMutAtt_processItemOp (q : List OfflineQueueItem) (item : OfflineQueueItem)
    (result : ClassifiedResult) (now : Nat) :
    onlyMutAtt (processItemOp q item result now).2 := by
  intro e he
  have h2 : (processItemOp q item result now).2 =
      if (q.find? (fun x => x.id == item.id)).isNone then []
      else [.mutate, .attempt item.id, .mutate] := rfl
  rw [h2] at he
  split at he
  · simp at he
  · simp only [List.mem_cons, List.not_mem_nil, or_false] at he
    rcases he with h | h | h
    · exact Or.inl h
    · exact Or.inr ⟨item.id, h⟩
    · exact Or.inl h

lemma onlyMutAtt_append {a b : List QueueEvent} (ha : onlyMutAtt a)
    (hb : onlyMutAtt b) : onlyMutAtt (a ++ b) :=
  fun e he => (List.mem_append.mp he).elim (ha e) (hb e)

lemma onlyMutAtt_foldl (exec : OfflineQueueItem → ClassifiedResult) (now : Nat) :
    ∀ (batch : List OfflineQueueItem)
      (acc : List OfflineQueueItem × List QueueEvent),
      onlyMutAtt acc.2 →
      onlyMutAtt ((batch.foldl
        (fun (acc : List OfflineQueueItem × List QueueEvent) it =>
          ((processItemOp acc.1 it (exec it) now).1,
           acc.2 ++ (processItemOp acc.1 it (exec it) now).2)) acc).2) := by
  intro batch
  induction batch with
  | nil => intro acc hacc; exact hacc
  | cons it rest ih =>
    intro acc hacc
    simp only [List.foldl_cons]
    exact ih _ (onlyMutAtt_append hacc (onlyMutAtt_processItemOp _ _ _ _))

lemma traceOkAux_mutAtt :
    ∀ (evs : List QueueEvent), onlyMutAtt evs →
      ∀ d, traceOkAux d (evs ++ [.persist, .notify]) = true := by
  intro evs
  induction evs with
  | nil => intro h d; rfl
  | cons e es ih =>
    intro h d
    have htail : onlyMutAtt es := fun x hx => h x (List.mem_cons_of_mem _ hx)
    rcases h e (List.mem_cons_self _ _) with he | ⟨i, he⟩ <;> subst he
    · exact ih htail true
    · exact ih htail d

lemma traceOk_processQueueOp (s : SyncState) (online : Bool)
    (exec : OfflineQueueItem → ClassifiedResult) (now : Nat) :
    traceOk (processQueueOp s online exec now).2 = true := by
  unfold processQueueOp
  split
  · rfl
  · split
    · rfl
    · exact traceOkAux_mutAtt _
        (onlyMutAtt_foldl exec now (selectBatch s.queue) (s.queue, [])
          (fun e he => absurd he (List.not_mem_nil e))) false

/-- C7. The event traces of enqueue, of a whole drain, and of removeItem
all satisfy the persistence discipline: every notification is preceded by
a persistence write that covers every mutation before it, so no
notification ever reports a mutation that is not yet durable. -/
theorem C7_persist_before_notify (s : SyncState) (id type rid : String)
    (payload : Payload) (now : Nat) (opts : EnqueueOptions) (online : Bool)
    (exec : OfflineQueueItem → ClassifiedResult) :
    traceOk (enqueueOp s id type payload now opts online exec).2 = true
  ∧ traceOk (processQueueOp s online exec now).2 = true
  ∧ traceOk (removeItemOp s rid).2 = true := by
  refine ⟨?_, traceOk_processQueueOp s online exec now, rfl⟩
  unfold enqueueOp
  split
  · simp only [List.cons_append, List.nil_append, traceOk, traceOkAux,
      Bool.not_false, Bool.true_and]
    exact traceOk_processQueueOp _ online exec now
  · rfl

end AttendanceQueue
